import Mathlib

/-!
Verification development for the fraud-detection repository.

The development shallowly embeds two modules of the repository:

* `src/api/auth.py` — signed-token creation/validation and the API-key
  authorization gate (`create_access_token`, `decode_access_token`,
  `verify_api_key`, `get_current_user_optional`);
* `src/src/monitoring/drift_detection.py` — the PSI/KS drift engine
  (`calculate_psi`, `_classify_drift_severity`, `detect_feature_drift`,
  `detect_target_drift`, `generate_drift_summary`);
* `src/src/monitoring/alerts.py` — `AlertManager.send_alert` channel fan-out.

Numeric data that Python holds in floats is modelled over `ℚ` (exact inputs)
and `ℝ` (values produced through the transcendental `log`).  Fallible Python
code (raised exceptions) is modelled with `Except`/`Option`.
-/

set_option maxHeartbeats 1000000
set_option maxRecDepth 100000

/-- Python values appearing in the token claim dictionaries: the repository
only ever stores strings (the `"sub"` claim) and integers (the `"exp"`
claim) in them. -/
inductive PyVal where
  | pyStr (s : String)
  | pyInt (n : ℤ)
deriving DecidableEq, Repr

/-- A Python `dict` with string keys, modelled as an insertion-ordered
association list (CPython dicts preserve insertion order). -/
abbrev PyDict := List (String × PyVal)

/-- Lookup of `d[k]` / `d.get(k)`: first entry with the given key. -/
def dictGet (d : PyDict) (k : String) : Option PyVal :=
  match d with
  | [] => none
  | (k', v) :: rest => if k' = k then some v else dictGet rest k

/-- `d.update({k: v})` / `d[k] = v`: replace the value in place if the key
exists, otherwise append the new entry (CPython insertion-order semantics). -/
def dictSet (d : PyDict) (k : String) (v : PyVal) : PyDict :=
  match d with
  | [] => [(k, v)]
  | (k', v') :: rest => if k' = k then (k, v) :: rest else (k', v') :: dictSet rest k v

/-! ### Serialization layer

`create_access_token` serializes the claim dict with
`base64.urlsafe_b64encode(json.dumps(to_encode).encode("utf-8"))` and
`decode_access_token` inverts that with `json.loads(base64.urlsafe_b64decode …)`.
Both are calls into Python standard-library collaborators (the `json` and
`base64` modules), not repository code.  They are modelled here by an
executable, injective, dot-free serializer `serializeClaims` together with a
partial-inverse parser `deserializeClaims`; the theorems rely only on the
interface properties the library pair guarantees: determinism, a dot-free
output alphabet (base64url never emits `.`), round-tripping, and rejection
(`none`, standing for a raised decoding exception) of malformed segments. -/

/-- Hexadecimal digit character for a value below 16 (`0-9a-f`). -/
def hexDigitChar (n : Nat) : Char :=
  if n < 10 then Char.ofNat (48 + n) else Char.ofNat (87 + n)

/-- Partial inverse of `hexDigitChar`; `none` on a non-hex-digit. -/
def hexDigitVal (c : Char) : Option Nat :=
  if 48 ≤ c.toNat ∧ c.toNat ≤ 57 then some (c.toNat - 48)
  else if 97 ≤ c.toNat ∧ c.toNat ≤ 102 then some (c.toNat - 87)
  else none

/-- A Unicode scalar value rendered as exactly six hex digits (every scalar
value is below `0x110000 < 16^6`). -/
def charHex6 (c : Char) : List Char :=
  [hexDigitChar (c.toNat / 16 ^ 5 % 16),
   hexDigitChar (c.toNat / 16 ^ 4 % 16),
   hexDigitChar (c.toNat / 16 ^ 3 % 16),
   hexDigitChar (c.toNat / 16 ^ 2 % 16),
   hexDigitChar (c.toNat / 16 ^ 1 % 16),
   hexDigitChar (c.toNat % 16)]

/-- Decode a sequence of six-hex-digit groups back into characters;
`none` if the length is not a multiple of six, a character is not a hex
digit, or a group is not a valid Unicode scalar value. -/
def decodeHexGroups : List Char → Option (List Char)
  | [] => some []
  | c1 :: c2 :: c3 :: c4 :: c5 :: c6 :: rest =>
    match hexDigitVal c1, hexDigitVal c2, hexDigitVal c3,
          hexDigitVal c4, hexDigitVal c5, hexDigitVal c6 with
    | some d1, some d2, some d3, some d4, some d5, some d6 =>
      let n := d1 * 16 ^ 5 + d2 * 16 ^ 4 + d3 * 16 ^ 3 + d4 * 16 ^ 2 + d5 * 16 + d6
      if n.isValidChar then
        match decodeHexGroups rest with
        | some cs => some (Char.ofNat n :: cs)
        | none => none
      else none
    | _, _, _, _, _, _ => none
  | _ => none

/-- Split a character list at the first `'g'` terminator; `none` when no
terminator is present. -/
def splitAtG : List Char → Option (List Char × List Char)
  | [] => none
  | c :: rest =>
    if c = 'g' then some ([], rest)
    else match splitAtG rest with
      | some (a, b) => some (c :: a, b)
      | none => none

/-- Canonical most-significant-digit-first hex digits of `n`; the first
argument is structural fuel (any fuel `≥ n` is enough, and the digit count
is logarithmic, so evaluation stays cheap). -/
def encNatCore : Nat → Nat → List Char
  | 0, _ => []
  | fuel + 1, n => if n = 0 then [] else encNatCore fuel (n / 16) ++ [hexDigitChar (n % 16)]

/-- Canonical hex rendering of a natural number (`"0"` for zero). -/
def encNatHex (n : Nat) : List Char :=
  if n = 0 then ['0'] else encNatCore n n

/-- Accumulating most-significant-first hex reader; `none` on a non-digit. -/
def hexValAux (acc : Nat) : List Char → Option Nat
  | [] => some acc
  | c :: cs =>
    match hexDigitVal c with
    | some d => hexValAux (16 * acc + d) cs
    | none => none

/-- Encoded string segment: six-hex-digit groups followed by the `'g'`
terminator (the terminator is outside the hex alphabet, so segments are
self-delimiting). -/
def encStrSeg (s : String) : List Char :=
  (s.data.map charHex6).flatten ++ ['g']

/-- Parse one string segment, returning the decoded string and the rest. -/
def parseStrSeg (cs : List Char) : Option (String × List Char) :=
  match splitAtG cs with
  | some (pre, rest) =>
    match decodeHexGroups pre with
    | some chars => some (String.mk chars, rest)
    | none => none
  | none => none

/-- Encoded integer segment: a sign tag (`'n'`/`'p'`), canonical hex
magnitude, and the `'g'` terminator. -/
def encIntSeg (n : ℤ) : List Char :=
  (if n < 0 then 'n' else 'p') :: encNatHex n.natAbs ++ ['g']

/-- Parse one integer segment, returning the value and the rest. -/
def parseIntSeg (cs : List Char) : Option (ℤ × List Char) :=
  match splitAtG cs with
  | some (pre, rest) =>
    match pre with
    | 'n' :: ds =>
      match hexValAux 0 ds with
      | some m => some (-(m : ℤ), rest)
      | none => none
    | 'p' :: ds =>
      match hexValAux 0 ds with
      | some m => some ((m : ℤ), rest)
      | none => none
    | _ => none
  | none => none

/-- One serialized dict entry: the key segment, then a value tag
(`'s'` string / `'i'` integer) and the value segment. -/
def encEntry (e : String × PyVal) : List Char :=
  match e.2 with
  | .pyStr s => encStrSeg e.1 ++ 's' :: encStrSeg s
  | .pyInt n => encStrSeg e.1 ++ 'i' :: encIntSeg n

/-- Model of `base64.urlsafe_b64encode(json.dumps(d).encode("utf-8"))`:
a deterministic, injective, dot-free rendering of the claim dict. -/
def serializeClaims (d : PyDict) : List Char :=
  (d.map encEntry).flatten

/-- Entry-list parser with structural fuel (each entry consumes at least one
character, so fuel equal to the input length always suffices). -/
def parseEntries : Nat → List Char → Option PyDict
  | _, [] => some []
  | 0, _ :: _ => none
  | fuel + 1, cs =>
    match parseStrSeg cs with
    | some (k, cs1) =>
      match cs1 with
      | 's' :: cs2 =>
        match parseStrSeg cs2 with
        | some (v, cs3) =>
          match parseEntries fuel cs3 with
          | some rest => some ((k, .pyStr v) :: rest)
          | none => none
        | none => none
      | 'i' :: cs2 =>
        match parseIntSeg cs2 with
        | some (v, cs3) =>
          match parseEntries fuel cs3 with
          | some rest => some ((k, .pyInt v) :: rest)
          | none => none
        | none => none
      | _ => none
    | none => none

/-- Model of `json.loads(base64.urlsafe_b64decode(payload))`: partial inverse
of `serializeClaims`; `none` models the decoding/parsing exceptions raised on
a malformed payload segment. -/
def deserializeClaims (s : String) : Option PyDict :=
  parseEntries s.data.length s.data

/-! ### auth.py — signed tokens and the authorization gate -/

/-- Configured signing secret: `os.getenv("JWT_SECRET_KEY", default)`; the
environment variable is unset in the deployments modelled here, so the
documented default applies. -/
def SECRET_KEY : String := "your-secret-key-change-in-production"

/-- Default token lifetime in seconds (`ACCESS_TOKEN_EXPIRE_MINUTES = 30`). -/
def ACCESS_TOKEN_EXPIRE_SECONDS : ℤ := 30 * 60

/-- Model of `hashlib.sha256(s).hexdigest()` (a standard-library
collaborator, not repository code): a deterministic digest of the input
rendered in lowercase hex.  The theorems below use only that it is a
function of its input with a hex (hence dot-free) output. -/
def sha256hex (s : String) : String :=
  String.mk (encNatHex (s.data.foldl (fun h c => (h * 31 + c.toNat) % 65521) 5381))

/-- The repository's `_sign(payload) = sha256((payload + SECRET_KEY)).hexdigest()`. -/
def pySign (payload : String) : String :=
  sha256hex (payload ++ SECRET_KEY)

/-- The `TokenData` pydantic model (`username: Optional[str]`, `scopes: list = []`). -/
structure TokenData where
  username : Option String
  scopes : List String := []
deriving DecidableEq, Repr

/-- An `HTTPException` as raised by the auth module: status code, detail
message and response headers. -/
structure AuthError where
  status_code : Nat
  detail : String
  headers : List (String × String)
deriving DecidableEq, Repr

/-- The single `credentials_exception` value that `decode_access_token`
raises on every validation failure. -/
def credentials_exception : AuthError :=
  { status_code := 401
    detail := "Could not validate credentials"
    headers := [("WWW-Authenticate", "Bearer")] }

/-- Model of `create_access_token(data, expires_delta)`.  The wall clock
(`datetime.now(timezone.utc)`, in epoch seconds) is passed explicitly as
`now`; `expires_delta` is the optional `timedelta` in seconds.  Python's
`expires_delta or timedelta(minutes=30)` treats a zero timedelta as falsy,
hence the `d = 0` branch. -/
def create_access_token (data : PyDict) (expires_delta : Option ℤ) (now : ℤ) : String :=
  let to_encode := data
  let delta : ℤ :=
    match expires_delta with
    | some d => if d = 0 then ACCESS_TOKEN_EXPIRE_SECONDS else d
    | none => ACCESS_TOKEN_EXPIRE_SECONDS
  let expire := now + delta
  let to_encode := dictSet to_encode "exp" (.pyInt expire)
  let payload := String.mk (serializeClaims to_encode)
  let signature := pySign payload
  payload ++ "." ++ signature

/-- Python's `str.split(".")`: split at every dot. -/
def pySplitDot : List Char → List (List Char)
  | [] => [[]]
  | c :: rest =>
    if c = '.' then [] :: pySplitDot rest
    else match pySplitDot rest with
      | s :: ss => (c :: s) :: ss
      | [] => [[c]]

/-- Model of `decode_access_token(token)`, validated against the clock
`now` (`time.time()`).  Every failure branch — the two-element unpacking of
`token.split(".")` (a `ValueError` caught by the blanket handler), a
signature mismatch, a malformed payload segment, a missing/empty/non-string
`"sub"` claim (a falsy subject or a pydantic validation error, both caught),
a non-integer `"exp"` claim (a `TypeError` in the comparison, caught), and
an expired token — produces the same `credentials_exception`. -/
def decode_access_token (token : String) (now : ℤ) : Except AuthError TokenData :=
  match pySplitDot token.data with
  | [payload_b64, signature] =>
    if String.mk signature ≠ pySign (String.mk payload_b64) then
      .error credentials_exception
    else
      match deserializeClaims (String.mk payload_b64) with
      | none => .error credentials_exception
      | some payload =>
        match dictGet payload "sub" with
        | some (.pyStr username) =>
          match (match dictGet payload "exp" with
                 | some (.pyInt n) => some n
                 | none => some 0
                 | some (.pyStr _) => none) with
          | none => .error credentials_exception
          | some exp_ts =>
            if username = "" ∨ now > exp_ts then .error credentials_exception
            else .ok { username := some username }
        | _ => .error credentials_exception
  | _ => .error credentials_exception

/-- The `User` pydantic model. -/
structure User where
  username : String
  email : Option String := none
  full_name : Option String := none
  disabled : Option Bool := none
deriving DecidableEq, Repr

/-- Model of Python's `str.title()` (only applied to display names; no
claim depends on its details beyond determinism). -/
def pyTitle (s : String) : String := s.capitalize

/-- Model of `get_current_user(credentials)`: `credentials` is the optional
bearer header, carrying the token string when present.  A missing header or
an empty token raises the 403 "Not authenticated" exception; otherwise the
token is decoded (propagating `credentials_exception` on failure) and a
`User` is built from the subject. -/
def get_current_user (credentials : Option String) (now : ℤ) : Except AuthError User :=
  match credentials with
  | none => .error { status_code := 403, detail := "Not authenticated",
                     headers := [("WWW-Authenticate", "Bearer")] }
  | some tok =>
    if tok = "" then
      .error { status_code := 403, detail := "Not authenticated",
               headers := [("WWW-Authenticate", "Bearer")] }
    else
      match decode_access_token tok now with
      | .error e => .error e
      | .ok token_data =>
        let name := token_data.username.getD ""
        .ok { username := name
              email := some (name ++ "@example.com")
              full_name := some (pyTitle name)
              disabled := some false }

/-- Environment configuration read by the API-key gate:
the raw `ENABLE_API_KEY_AUTH` variable and the configured `API_KEY`. -/
structure AuthEnv where
  enable_api_key_auth : Option String
  api_key : Option String
deriving DecidableEq, Repr

/-- Model of Python's `str.lower()` for the ASCII configuration strings the
gate compares (per-character lowercasing). -/
def pyLower (s : String) : String :=
  String.mk (s.data.map Char.toLower)

/-- The gate's enablement test:
`os.getenv("ENABLE_API_KEY_AUTH", "false").lower() == "true"`. -/
def apiKeyAuthEnabled (env : AuthEnv) : Bool :=
  pyLower (env.enable_api_key_auth.getD "false") = "true"

/-- Python truthiness of an optional string (`None` and `""` are falsy). -/
def optStrTruthy : Option String → Bool
  | none => false
  | some s => s ≠ ""

/-- The 401 raised by `verify_api_key` on a wrong or missing key. -/
def invalid_api_key_exception : AuthError :=
  { status_code := 401
    detail := "Invalid or missing API Key"
    headers := [("WWW-Authenticate", "API-Key")] }

/-- Model of `verify_api_key(api_key)`: allow (fail-open) when API-key auth
is disabled or no key is configured (`if not valid_api_key`, so an empty
configured key also allows); otherwise require an exactly equal presented
key. -/
def verify_api_key (env : AuthEnv) (api_key : Option String) : Except AuthError Bool :=
  if ¬ apiKeyAuthEnabled env then .ok true
  else if ¬ optStrTruthy env.api_key then .ok true
  else
    match api_key with
    | none => .error invalid_api_key_exception
    | some k =>
      if k ≠ env.api_key.getD "" then .error invalid_api_key_exception
      else .ok true

/-- The generic identity returned for a validated API key. -/
def api_key_user : User :=
  { username := "api_key_user", email := some "api@example.com" }

/-- Model of `get_current_user_optional(credentials, api_key)`: try the JWT
first (any `HTTPException` is swallowed), then the API key (`if api_key:`
skips a missing or empty header; `verify_api_key` failures are swallowed),
and fall back to `None`. -/
def get_current_user_optional (env : AuthEnv) (credentials : Option String)
    (api_key : Option String) (now : ℤ) : Option User :=
  let try_api_key : Option User :=
    match api_key with
    | none => none
    | some k =>
      if k = "" then none
      else
        match verify_api_key env (some k) with
        | .ok _ => some api_key_user
        | .error _ => none
  match credentials with
  | some tok =>
    match get_current_user (some tok) now with
    | .ok u => some u
    | .error _ => try_api_key
  | none => try_api_key

/-! ### Object-store semantics of `create_access_token`

Claim C9 is about mutation: `create_access_token` copies its `data` dict
(`to_encode = data.copy()`) and mutates only the copy.  To state that, the
function is re-expressed over an explicit store of dict objects; references
are store indices, `data.copy()` allocates a fresh object, and
`to_encode.update(...)` writes through the reference. -/

/-- A store of Python dict objects; a reference is an index. -/
abbrev PyStore := List PyDict

/-- Dereference a dict object. -/
def storeRead (σ : PyStore) (r : Nat) : PyDict := σ.getD r []

/-- Overwrite the object behind a reference. -/
def storeWrite (σ : PyStore) (r : Nat) (d : PyDict) : PyStore := σ.set r d

/-- Allocate a fresh object, returning its reference. -/
def storeAlloc (σ : PyStore) (d : PyDict) : Nat × PyStore := (σ.length, σ ++ [d])

/-- Store-level model of `create_access_token`: `data.copy()` allocates a
fresh dict, `to_encode.update({"exp": ...})` mutates that fresh dict in
place, and the token is built from it.  Returns the token together with the
final store. -/
def create_access_token_st (σ : PyStore) (dataRef : Nat) (expires_delta : Option ℤ)
    (now : ℤ) : String × PyStore :=
  let alloc := storeAlloc σ (storeRead σ dataRef)
  let toEncodeRef := alloc.1
  let σ1 := alloc.2
  let delta : ℤ :=
    match expires_delta with
    | some d => if d = 0 then ACCESS_TOKEN_EXPIRE_SECONDS else d
    | none => ACCESS_TOKEN_EXPIRE_SECONDS
  let expire := now + delta
  let σ2 := storeWrite σ1 toEncodeRef (dictSet (storeRead σ1 toEncodeRef) "exp" (.pyInt expire))
  let payload := String.mk (serializeClaims (storeRead σ2 toEncodeRef))
  let signature := pySign payload
  (payload ++ "." ++ signature, σ2)

/-! ### drift_detection.py — the statistical drift engine

Feature data is modelled over `ℚ` (pandas numeric columns, with `Option`
marking nulls); the PSI value itself lives in `ℝ` because it goes through
`np.log`.  A raised numpy/pandas exception is an `Except.error` carrying the
Python exception text. -/

/-- Insertion of one element into an ascending sorted list. -/
def insertAsc (x : ℚ) : List ℚ → List ℚ
  | [] => [x]
  | y :: ys => if x ≤ y then x :: y :: ys else y :: insertAsc x ys

/-- Ascending sort (the sort numpy performs inside `np.percentile`; on `ℚ`
any comparison sort yields the same list). -/
def sortAsc (l : List ℚ) : List ℚ :=
  match l with
  | [] => []
  | x :: xs => insertAsc x (sortAsc xs)

/-- Model of `np.percentile(data, q)` with the default linear-interpolation
method on a non-empty sample: position `q/100 * (n-1)` into the sorted data,
interpolating between the two neighbouring order statistics. -/
def npPercentile (data : List ℚ) (q : ℚ) : ℚ :=
  let s := sortAsc data
  let n := s.length
  let pos := q * ((n : ℚ) - 1) / 100
  let i := pos.floor.toNat
  let frac := pos - pos.floor
  match s.get? i, s.get? (i + 1) with
  | some lo, some hi => lo + frac * (hi - lo)
  | some lo, none => lo
  | none, _ => 0

/-- `np.linspace(0, 100, bins + 1)`: the evenly spaced quantile levels. -/
def linspace100 (bins : Nat) : List ℚ :=
  (List.range (bins + 1)).map fun i => 100 * (i : ℚ) / (bins : ℚ)

/-- A histogram bin edge; the outermost breakpoints are replaced by
`-np.inf` / `np.inf` in `calculate_psi`. -/
inductive BinEdge where
  | negInf
  | val (q : ℚ)
  | posInf
deriving DecidableEq, Repr

/-- Left-edge test `e ≤ x`. -/
def edgeLE : BinEdge → ℚ → Bool
  | .negInf, _ => true
  | .val a, x => a ≤ x
  | .posInf, _ => false

/-- Strict right-edge test `x < e`. -/
def edgeLT : ℚ → BinEdge → Bool
  | _, .negInf => false
  | x, .val a => x < a
  | _, .posInf => true

/-- Inclusive right-edge test `x ≤ e` (used for the rightmost bin). -/
def edgeLEr : ℚ → BinEdge → Bool
  | _, .negInf => false
  | x, .val a => x ≤ a
  | _, .posInf => true

/-- Model of `np.histogram(data, bins=edges)[0]`: bin `i` counts values in
`[eᵢ, eᵢ₊₁)`, except the rightmost bin which is closed on the right. -/
def histCounts (data : List ℚ) : List BinEdge → List Nat
  | e1 :: e2 :: e3 :: es =>
    data.countP (fun x => edgeLE e1 x && edgeLT x e2) :: histCounts data (e2 :: e3 :: es)
  | [e1, e2] => [data.countP fun x => edgeLE e1 x && edgeLEr x e2]
  | _ => []

/-- The breakpoint computation of `calculate_psi`: percentiles of the
reference at the `linspace` quantiles, with the first breakpoint replaced by
`-np.inf` and the last by `np.inf`.  `np.percentile` of an empty array
raises `IndexError`, which propagates out of `calculate_psi`. -/
def psiBreakpoints (reference : List ℚ) (bins : Nat) : Except String (List BinEdge) :=
  if reference = [] then
    .error "IndexError: cannot do a non-empty take from an empty axes."
  else
    let raw := (linspace100 bins).map (npPercentile reference)
    .ok (.negInf :: ((raw.drop 1).dropLast.map .val) ++ [.posInf])

/-- Bin counts normalized to fractions of the distribution's size
(`counts / len(data)`).  For an empty `data`, numpy's `0/0` yields `nan`
with a warning rather than raising; `ℚ` division totalizes that corner to
`0`, and no theorem below evaluates it. -/
def binPercents (counts : List Nat) (total : Nat) : List ℚ :=
  counts.map fun c : ℕ => (c : ℚ) / (total : ℚ)

/-- The zero-fraction floor `np.where(p == 0, 0.0001, p)`. -/
def clampFloor (p : ℚ) : ℚ := if p = 0 then 1 / 10000 else p

/-- One PSI summand `(cur - ref) * ln(cur / ref)`. -/
noncomputable def psiTerm (c r : ℚ) : ℝ :=
  ((c : ℝ) - (r : ℝ)) * Real.log ((c : ℝ) / (r : ℝ))

/-- `np.sum((cur_percents - ref_percents) * np.log(cur_percents / ref_percents))`
over the two equally long clamped fraction vectors. -/
noncomputable def psiSum (cur ref : List ℚ) : ℝ :=
  ((cur.zip ref).map fun p => psiTerm p.1 p.2).sum

/-- Model of `FraudDriftDetector.calculate_psi(reference, current, bins=10)`. -/
noncomputable def calculate_psi (reference current : List ℚ) (bins : Nat := 10) :
    Except String ℝ := do
  let breakpoints ← psiBreakpoints reference bins
  let ref_counts := histCounts reference breakpoints
  let cur_counts := histCounts current breakpoints
  let ref_percents := binPercents ref_counts reference.length
  let cur_percents := binPercents cur_counts current.length
  let ref_percents := ref_percents.map clampFloor
  let cur_percents := cur_percents.map clampFloor
  pure (psiSum cur_percents ref_percents)

/-- Model of `FraudDriftDetector._classify_drift_severity(psi)` (the leading
underscore of the Python name is dropped). -/
noncomputable def classify_drift_severity (psi : ℝ) : String :=
  if psi < 0.1 then "none"
  else if psi < 0.2 then "moderate"
  else "significant"

/-- A per-feature drift finding as built by `detect_feature_drift`
(the dict `{psi, ks_statistic, ks_p_value, drift_detected, drift_severity}`). -/
structure DriftFindingR where
  psi : ℝ
  ks_statistic : ℝ
  ks_p_value : ℝ
  drift_detected : Prop
  drift_severity : String

/-- A pandas column: entries may be null. -/
abbrev PyColumn := List (Option ℚ)

/-- A pandas `DataFrame`, modelled as its named numeric columns. -/
abbrev PyFrame := List (String × PyColumn)

/-- `df[feature].dropna().values`. -/
def dropna (col : PyColumn) : List ℚ := col.filterMap id

/-- `feature in df.columns`. -/
def hasColumn (df : PyFrame) (feature : String) : Bool :=
  (df.lookup feature).isSome

/-- Model of `FraudDriftDetector.detect_feature_drift(reference_data,
current_data, features)`.  `threshold_psi`/`threshold_ks` are the detector's
constructor arguments; `calculate_ks_test` wraps the external
`scipy.stats.ks_2samp`, so it is passed in as the collaborator function
`ks_test` returning `(ks_statistic, p_value)` or a raised exception.
A feature missing from either frame is skipped (warning only); any exception
raised per feature — in particular the `IndexError` from `calculate_psi` on
an empty reference column — propagates and aborts the whole call, since the
loop body has no exception handler. -/
noncomputable def detect_feature_drift (threshold_psi threshold_ks : ℝ)
    (ks_test : List ℚ → List ℚ → Except String (ℝ × ℝ))
    (reference_data current_data : PyFrame) :
    List String → Except String (List (String × DriftFindingR))
  | [] => .ok []
  | feature :: features =>
    if ¬ (hasColumn reference_data feature && hasColumn current_data feature) then
      detect_feature_drift threshold_psi threshold_ks ks_test reference_data current_data features
    else do
      let ref_values := dropna ((reference_data.lookup feature).getD [])
      let cur_values := dropna ((current_data.lookup feature).getD [])
      let psi ← calculate_psi ref_values cur_values
      let ks ← ks_test ref_values cur_values
      let rest ← detect_feature_drift threshold_psi threshold_ks ks_test
        reference_data current_data features
      .ok ((feature,
        { psi := psi
          ks_statistic := ks.1
          ks_p_value := ks.2
          drift_detected := psi > threshold_psi ∨ ks.2 < threshold_ks
          drift_severity := classify_drift_severity psi }) :: rest)

/-- The result dict of `detect_target_drift`.  The chi-square statistic is
`scipy.stats.chisquare`'s sum of `(obs - exp)² / exp`; its p-value is an
external special-function evaluation (the chi-square survival function) that
no claim concerns, so it is not carried in the model. -/
structure TargetDriftResult where
  reference_fraud_rate : ℚ
  current_fraud_rate : ℚ
  fraud_rate_change : ℚ
  psi : ℝ
  chi2_statistic : ℚ
  drift_detected : Prop

/-- `scipy.stats.chisquare(f_obs, f_exp)`'s statistic `Σ (obs-exp)²/exp`
(`ℚ` division totalizes the zero-expectation corner that numpy turns into
`inf`/`nan` warnings; no theorem evaluates it). -/
def chisquareStat (obs exps : List ℚ) : ℚ :=
  ((obs.zip exps).map fun p => (p.1 - p.2) ^ 2 / p.2).sum

/-- `(predictions > 0.5).mean()`: the fraction of scores strictly greater
than `0.5` (numpy's mean of an empty array is `nan`; the `ℚ` model
totalizes that corner to `0`, and the theorems assume non-empty arrays). -/
def fraudRate (predictions : List ℚ) : ℚ :=
  ((predictions.countP fun x => 1 / 2 < x : Nat) : ℚ) / (predictions.length : ℚ)

/-- Model of `FraudDriftDetector.detect_target_drift(reference_predictions,
current_predictions)`; `threshold_psi` is the detector's constructor
argument (default `0.2`). -/
noncomputable def detect_target_drift (threshold_psi : ℝ)
    (reference_predictions current_predictions : List ℚ) :
    Except String TargetDriftResult := do
  let ref_fraud_rate := fraudRate reference_predictions
  let cur_fraud_rate := fraudRate current_predictions
  let rate_change : ℚ :=
    if ref_fraud_rate > 0 then |cur_fraud_rate - ref_fraud_rate| / ref_fraud_rate else 0
  let psi ← calculate_psi reference_predictions current_predictions
  let chi2 := chisquareStat [cur_fraud_rate, 1 - cur_fraud_rate]
    [ref_fraud_rate, 1 - ref_fraud_rate]
  pure
    { reference_fraud_rate := ref_fraud_rate
      current_fraud_rate := cur_fraud_rate
      fraud_rate_change := rate_change
      psi := psi
      chi2_statistic := chi2
      drift_detected := psi > threshold_psi ∨ rate_change > 3 / 10 }

/-! #### `generate_drift_summary`

The summary consumes a previously computed drift report (a dict of finding
dicts); the only fields it reads are `drift_detected` and `psi`.  The report
is an arbitrary input here, so its PSI entries are modelled as exact `ℚ`
values, which keeps the summary computable. -/

/-- The slice of a report entry that `generate_drift_summary` reads. -/
structure ReportEntry where
  psi : ℚ
  drift_detected : Bool
deriving DecidableEq, Repr

/-- A drift report: insertion-ordered mapping feature → finding. -/
abbrev DriftReport := List (String × ReportEntry)

/-- `[f for f, metrics in drift_report.items() if metrics['drift_detected']]`. -/
def drift_features (report : DriftReport) : List String :=
  (report.filter fun p => p.2.drift_detected).map fun p => p.1

/-- `drift_report[feature]['psi']`. -/
def reportPsi (report : DriftReport) (feature : String) : ℚ :=
  ((report.lookup feature).getD { psi := 0, drift_detected := false }).psi

/-- Rendering of `f"{psi:.4f}"`, the only float formatting in the summary:
sign, integer part, and four rounded decimal digits (modelling Python's
fixed-point float formatting; the claims only concern which features are
listed, not the digit strings).  `scaled` is `⌊|q|·10⁴ + 1/2⌋` computed on
the numerator/denominator so that it evaluates by kernel reduction. -/
def formatRat4 (q : ℚ) : String :=
  let scaled : ℕ := (2 * 10000 * q.num.natAbs + q.den) / (2 * q.den)
  let sign := if q < 0 then "-" else ""
  let ip := scaled / 10000
  let fp := scaled % 10000
  let fpDigits := toString fp
  let pad := String.mk (List.replicate (4 - fpDigits.length) '0')
  sign ++ toString ip ++ "." ++ pad ++ fpDigits

/-- Model of `FraudDriftDetector.generate_drift_summary(drift_report)`:
header lines with the total and drifted counts, then (when any feature
drifted) the first five drifted features in report order (`drift_features[:5]`),
each with its PSI. -/
def generate_drift_summary (report : DriftReport) : String :=
  let total_features := report.length
  let dfs := drift_features report
  let summary := "Drift Detection Summary:\n"
  let summary := summary ++ "  Total features monitored: " ++ toString total_features ++ "\n"
  let summary := summary ++ "  Features with drift: " ++ toString dfs.length ++ "\n"
  if dfs.isEmpty then summary
  else
    summary ++ "\n  Critical features:\n" ++
      String.join ((dfs.take 5).map fun feature =>
        "    - " ++ feature ++ ": PSI = " ++ formatRat4 (reportPsi report feature) ++ "\n")

/-- Insertion of one report entry into a list sorted by descending PSI. -/
def insertDescByPsi (x : String × ReportEntry) :
    List (String × ReportEntry) → List (String × ReportEntry)
  | [] => [x]
  | y :: ys => if y.2.psi ≤ x.2.psi then x :: y :: ys else y :: insertDescByPsi x ys

/-- Stable descending-by-PSI insertion sort over report entries. -/
def sortDescByPsi : List (String × ReportEntry) → List (String × ReportEntry)
  | [] => []
  | x :: xs => insertDescByPsi x (sortDescByPsi xs)

/-- Modelled from the spec's words (for comparison with the code's
`drift_features[:5]` selection): "up to the top 5 drifted features by PSI
descending" — the drifted features sorted by PSI in descending order, then
truncated to five. -/
def top5_by_psi_desc (report : DriftReport) : List String :=
  ((sortDescByPsi (report.filter fun p => p.2.drift_detected)).map fun p => p.1).take 5

/-! ### alerts.py — AlertManager channel fan-out -/

/-- The `AlertSeverity` enum. -/
inductive AlertSeverity where
  | info
  | warning
  | error
  | critical
deriving DecidableEq, Repr

/-- The `AlertChannel` enum. -/
inductive AlertChannel where
  | slack
  | teams
  | email
  | webhook
deriving DecidableEq, Repr

/-- An `Alert` dataclass instance (`__post_init__` fills the timestamp from
the clock when it is not supplied, so it is passed in here). -/
structure Alert where
  title : String
  message : String
  severity : AlertSeverity
  timestamp : String
deriving DecidableEq, Repr

/-- `AlertManager.__init__`: the enabled flags are
`os.getenv(VAR, "false").lower() == "true"` and the webhooks are the raw
environment values. -/
structure AlertManager where
  slack_enabled : Bool
  teams_enabled : Bool
  email_enabled : Bool
  slack_webhook : Option String
  teams_webhook : Option String
deriving DecidableEq, Repr

/-- Construction of an `AlertManager` from raw environment values. -/
def AlertManager.ofEnv (slackRaw teamsRaw emailRaw : Option String)
    (slackWebhook teamsWebhook : Option String) : AlertManager :=
  { slack_enabled := pyLower (slackRaw.getD "false") = "true"
    teams_enabled := pyLower (teamsRaw.getD "false") = "true"
    email_enabled := pyLower (emailRaw.getD "false") = "true"
    slack_webhook := slackWebhook
    teams_webhook := teamsWebhook }

/-- Model of `AlertManager.send_alert(title, message, severity, ...)`.
The per-channel senders `_send_slack` / `_send_teams` / `_send_email` are
network collaborators whose success/failure outcome is supplied by
`deliver`; `now` fills the alert timestamp.  The result is the
insertion-ordered `results` dict: Slack is attempted only when enabled with
a truthy webhook, Teams likewise, email whenever enabled; the `webhook`
enum member is never attempted. -/
def AlertManager.send_alert (m : AlertManager) (deliver : AlertChannel → Alert → Bool)
    (title message : String) (severity : AlertSeverity) (now : String) :
    List (AlertChannel × Bool) :=
  let alert : Alert := { title := title, message := message, severity := severity,
                         timestamp := now }
  let results : List (AlertChannel × Bool) := []
  let results := if m.slack_enabled && optStrTruthy m.slack_webhook then
      results ++ [(.slack, deliver .slack alert)] else results
  let results := if m.teams_enabled && optStrTruthy m.teams_webhook then
      results ++ [(.teams, deliver .teams alert)] else results
  let results := if m.email_enabled then
      results ++ [(.email, deliver .email alert)] else results
  results

/-! ### Lemmas: serialization round-trip and alphabet facts -/

theorem hexDigitVal_hexDigitChar {d : Nat} (h : d < 16) :
    hexDigitVal (hexDigitChar d) = some d := by
  interval_cases d <;> decide

theorem hexDigitChar_ne_g {d : Nat} (h : d < 16) : hexDigitChar d ≠ 'g' := by
  interval_cases d <;> decide

theorem hexDigitChar_ne_dot {d : Nat} (h : d < 16) : hexDigitChar d ≠ '.' := by
  interval_cases d <;> decide

theorem mem_charHex6_ne_g {c x : Char} (h : x ∈ charHex6 c) : x ≠ 'g' := by
  simp only [charHex6, List.mem_cons, List.mem_singleton, List.not_mem_nil, or_false] at h
  rcases h with h | h | h | h | h | h <;>
    exact h ▸ hexDigitChar_ne_g (Nat.mod_lt _ (by norm_num))

theorem mem_charHex6_ne_dot {c x : Char} (h : x ∈ charHex6 c) : x ≠ '.' := by
  simp only [charHex6, List.mem_cons, List.mem_singleton, List.not_mem_nil, or_false] at h
  rcases h with h | h | h | h | h | h <;>
    exact h ▸ hexDigitChar_ne_dot (Nat.mod_lt _ (by norm_num))

theorem decodeHexGroups_flatten (l : List Char) :
    decodeHexGroups ((l.map charHex6).flatten) = some l := by
  induction l with
  | nil => rfl
  | cons c cs ih =>
    have hv : c.toNat.isValidChar := c.valid
    have hlt : c.toNat < 16 ^ 6 := by
      rcases hv with h | ⟨_, h⟩ <;> omega
    simp only [List.map_cons, List.flatten_cons, charHex6, List.cons_append, List.nil_append,
      decodeHexGroups]
    rw [hexDigitVal_hexDigitChar (Nat.mod_lt _ (by norm_num)),
        hexDigitVal_hexDigitChar (Nat.mod_lt _ (by norm_num)),
        hexDigitVal_hexDigitChar (Nat.mod_lt _ (by norm_num)),
        hexDigitVal_hexDigitChar (Nat.mod_lt _ (by norm_num)),
        hexDigitVal_hexDigitChar (Nat.mod_lt _ (by norm_num)),
        hexDigitVal_hexDigitChar (Nat.mod_lt _ (by norm_num))]
    have hsum : c.toNat / 16 ^ 5 % 16 * 16 ^ 5 + c.toNat / 16 ^ 4 % 16 * 16 ^ 4 +
        c.toNat / 16 ^ 3 % 16 * 16 ^ 3 + c.toNat / 16 ^ 2 % 16 * 16 ^ 2 +
        c.toNat / 16 ^ 1 % 16 * 16 + c.toNat % 16 = c.toNat := by
      omega
    simp only [List.append_eq, List.nil_append, hsum, ih]
    rw [if_pos hv, Char.ofNat_toNat]

theorem splitAtG_append {pre : List Char} (rest : List Char)
    (h : ∀ c ∈ pre, c ≠ 'g') : splitAtG (pre ++ 'g' :: rest) = some (pre, rest) := by
  induction pre with
  | nil => simp [splitAtG]
  | cons c cs ih =>
    have hc : c ≠ 'g' := h c (List.mem_cons_self c cs)
    have ih' := ih fun x hx => h x (List.mem_cons_of_mem c hx)
    simp [splitAtG, hc, ih']

theorem parseStrSeg_encStrSeg (s : String) (rest : List Char) :
    parseStrSeg (encStrSeg s ++ rest) = some (s, rest) := by
  have hnog : ∀ c ∈ (s.data.map charHex6).flatten, c ≠ 'g' := by
    intro c hc
    rw [List.mem_flatten] at hc
    obtain ⟨grp, hgrp, hcg⟩ := hc
    rw [List.mem_map] at hgrp
    obtain ⟨ch, _, rfl⟩ := hgrp
    exact mem_charHex6_ne_g hcg
  simp only [encStrSeg, List.append_assoc, List.singleton_append, parseStrSeg,
    splitAtG_append rest hnog, decodeHexGroups_flatten]

theorem mem_encNatCore_ne {fuel n : Nat} {x : Char} (h : x ∈ encNatCore fuel n) :
    x ≠ 'g' ∧ x ≠ '.' := by
  induction fuel generalizing n with
  | zero => simp [encNatCore] at h
  | succ fuel ih =>
    rw [encNatCore] at h
    by_cases hn : n = 0
    · simp [hn] at h
    · rw [if_neg hn, List.mem_append] at h
      rcases h with h | h
      · exact ih h
      · rw [List.mem_singleton] at h
        exact h ▸ ⟨hexDigitChar_ne_g (Nat.mod_lt _ (by norm_num)),
          hexDigitChar_ne_dot (Nat.mod_lt _ (by norm_num))⟩

theorem mem_encNatHex_ne {n : Nat} {x : Char} (h : x ∈ encNatHex n) :
    x ≠ 'g' ∧ x ≠ '.' := by
  rw [encNatHex] at h
  by_cases hn : n = 0
  · rw [if_pos hn, List.mem_singleton] at h
    exact h ▸ ⟨by decide, by decide⟩
  · exact mem_encNatCore_ne (if_neg hn ▸ h)

theorem hexValAux_encNatCore {fuel : Nat} :
    ∀ {n : Nat}, n ≤ fuel → ∀ (acc : Nat) (suffix : List Char),
      hexValAux acc (encNatCore fuel n ++ suffix) =
        hexValAux (acc * 16 ^ (encNatCore fuel n).length + n) suffix := by
  induction fuel with
  | zero =>
    intro n hn acc suffix
    interval_cases n
    simp [encNatCore, hexValAux]
  | succ fuel ih =>
    intro n hn acc suffix
    by_cases h0 : n = 0
    · simp [encNatCore, h0]
    · rw [encNatCore, if_neg h0]
      have hdiv : n / 16 ≤ fuel := by omega
      rw [List.append_assoc, List.singleton_append, ih hdiv,
        List.length_append, List.length_cons, List.length_nil]
      rw [show hexValAux (acc * 16 ^ (encNatCore fuel (n / 16)).length + n / 16)
            (hexDigitChar (n % 16) :: suffix) =
          match hexDigitVal (hexDigitChar (n % 16)) with
          | some d => hexValAux
              (16 * (acc * 16 ^ (encNatCore fuel (n / 16)).length + n / 16) + d) suffix
          | none => none from rfl]
      rw [hexDigitVal_hexDigitChar (Nat.mod_lt _ (by norm_num))]
      show hexValAux (16 * (acc * 16 ^ (encNatCore fuel (n / 16)).length + n / 16) + n % 16)
          suffix = hexValAux (acc * 16 ^ ((encNatCore fuel (n / 16)).length + 1) + n) suffix
      have hmod : 16 * (n / 16) + n % 16 = n := by omega
      have harg : 16 * (acc * 16 ^ (encNatCore fuel (n / 16)).length + n / 16) + n % 16 =
          acc * 16 ^ ((encNatCore fuel (n / 16)).length + 1) + n := by
        rw [pow_succ]
        calc 16 * (acc * 16 ^ (encNatCore fuel (n / 16)).length + n / 16) + n % 16
            = acc * (16 ^ (encNatCore fuel (n / 16)).length * 16) + (16 * (n / 16) + n % 16) := by
              ring
          _ = acc * (16 ^ (encNatCore fuel (n / 16)).length * 16) + n := by rw [hmod]
      rw [harg]

theorem hexValAux_encNatHex (n : Nat) : hexValAux 0 (encNatHex n) = some n := by
  rw [encNatHex]
  by_cases h0 : n = 0
  · rw [if_pos h0, h0]; rfl
  · rw [if_neg h0]
    have := hexValAux_encNatCore (Nat.le_refl n) 0 []
    rw [List.append_nil] at this
    rw [this]
    simp [hexValAux]

theorem parseIntSeg_encIntSeg (n : ℤ) (rest : List Char) :
    parseIntSeg (encIntSeg n ++ rest) = some (n, rest) := by
  have hno : ∀ c ∈ ((if n < 0 then 'n' else 'p') :: encNatHex n.natAbs), c ≠ 'g' := by
    intro c hc
    rcases List.mem_cons.1 hc with h | h
    · subst h; split <;> decide
    · exact (mem_encNatHex_ne h).1
  have hsplit : splitAtG (((if n < 0 then 'n' else 'p') :: encNatHex n.natAbs) ++ 'g' :: rest) =
      some ((if n < 0 then 'n' else 'p') :: encNatHex n.natAbs, rest) :=
    splitAtG_append rest hno
  rw [encIntSeg]
  by_cases hneg : n < 0
  · rw [if_pos hneg] at hsplit ⊢
    rw [parseIntSeg, show ('n' :: encNatHex n.natAbs ++ ['g']) ++ rest =
      ('n' :: encNatHex n.natAbs) ++ 'g' :: rest by simp, hsplit]
    simp only [hexValAux_encNatHex]
    have : -((n.natAbs : ℕ) : ℤ) = n := by omega
    rw [this]
  · rw [if_neg hneg] at hsplit ⊢
    rw [parseIntSeg, show ('p' :: encNatHex n.natAbs ++ ['g']) ++ rest =
      ('p' :: encNatHex n.natAbs) ++ 'g' :: rest by simp, hsplit]
    simp only [hexValAux_encNatHex]
    have : ((n.natAbs : ℕ) : ℤ) = n := by omega
    rw [this]

theorem encStrSeg_ne_nil (s : String) (rest : List Char) : encStrSeg s ++ rest ≠ [] := by
  simp [encStrSeg]

theorem parseEntries_strEntry (fuel : Nat) (k v : String) (rest : List Char) :
    parseEntries (fuel + 1) (encStrSeg k ++ 's' :: (encStrSeg v ++ rest)) =
      match parseEntries fuel rest with
      | some d => some ((k, PyVal.pyStr v) :: d)
      | none => none := by
  obtain ⟨c, cs, hc⟩ := List.exists_cons_of_ne_nil
    (encStrSeg_ne_nil k ('s' :: (encStrSeg v ++ rest)))
  rw [hc, parseEntries, ← hc]
  · simp only [parseStrSeg_encStrSeg]
  · exact fun h => List.noConfusion h

theorem parseEntries_intEntry (fuel : Nat) (k : String) (n : ℤ) (rest : List Char) :
    parseEntries (fuel + 1) (encStrSeg k ++ 'i' :: (encIntSeg n ++ rest)) =
      match parseEntries fuel rest with
      | some d => some ((k, PyVal.pyInt n) :: d)
      | none => none := by
  obtain ⟨c, cs, hc⟩ := List.exists_cons_of_ne_nil
    (encStrSeg_ne_nil k ('i' :: (encIntSeg n ++ rest)))
  rw [hc, parseEntries, ← hc]
  · simp only [parseStrSeg_encStrSeg, parseIntSeg_encIntSeg]
  · exact fun h => List.noConfusion h

theorem deserializeClaims_subExp (subject : String) (e : ℤ) :
    deserializeClaims
      (String.mk (serializeClaims [("sub", .pyStr subject), ("exp", .pyInt e)])) =
      some [("sub", .pyStr subject), ("exp", .pyInt e)] := by
  have hser : serializeClaims [("sub", .pyStr subject), ("exp", .pyInt e)] =
      encStrSeg "sub" ++ 's' :: (encStrSeg subject ++
        (encStrSeg "exp" ++ 'i' :: (encIntSeg e ++ []))) := by
    simp [serializeClaims, encEntry]
  rw [deserializeClaims]
  rw [show (String.mk (serializeClaims [("sub", .pyStr subject), ("exp", .pyInt e)])).data =
    serializeClaims [("sub", .pyStr subject), ("exp", .pyInt e)] from rfl]
  rw [hser]
  have hlen1 : (encStrSeg "sub" ++ 's' :: (encStrSeg subject ++
      (encStrSeg "exp" ++ 'i' :: (encIntSeg e ++ [])))).length =
      ((encStrSeg "sub" ++ 's' :: (encStrSeg subject ++
        (encStrSeg "exp" ++ 'i' :: (encIntSeg e ++ [])))).length - 2) + 1 + 1 := by
    simp [encStrSeg, encIntSeg]
    omega
  rw [hlen1, parseEntries_strEntry, parseEntries_intEntry]
  rfl

theorem mem_serializeClaims_ne_dot {d : PyDict} {x : Char} (h : x ∈ serializeClaims d) :
    x ≠ '.' := by
  induction d with
  | nil => simp [serializeClaims] at h
  | cons entry rest ih =>
    rw [serializeClaims, List.map_cons, List.flatten_cons, List.mem_append] at h
    rcases h with h | h
    · have hstr : ∀ (s : String) (y : Char), y ∈ encStrSeg s → y ≠ '.' := by
        intro s y hy
        rw [encStrSeg, List.mem_append] at hy
        rcases hy with hy | hy
        · rw [List.mem_flatten] at hy
          obtain ⟨grp, hgrp, hyg⟩ := hy
          rw [List.mem_map] at hgrp
          obtain ⟨ch, _, rfl⟩ := hgrp
          exact mem_charHex6_ne_dot hyg
        · rw [List.mem_singleton] at hy
          exact hy ▸ by decide
      rcases entry with ⟨k, v⟩
      rcases v with s | n
      · rw [encEntry, List.mem_append, List.mem_cons] at h
        rcases h with h | h | h
        · exact hstr k x h
        · exact h ▸ by decide
        · exact hstr s x h
      · rw [encEntry, List.mem_append, List.mem_cons] at h
        rcases h with h | h | h
        · exact hstr k x h
        · exact h ▸ by decide
        · rw [encIntSeg, List.mem_append, List.mem_cons, List.mem_singleton] at h
          rcases h with (h | h) | h
          · subst h; split <;> decide
          · exact (mem_encNatHex_ne h).2
          · exact h ▸ by decide
    · exact ih h

theorem mem_pySign_ne_dot {s : String} {x : Char} (h : x ∈ (pySign s).data) : x ≠ '.' := by
  rw [pySign, sha256hex] at h
  exact (mem_encNatHex_ne h).2

theorem pySplitDot_noDot {l : List Char} (h : ∀ c ∈ l, c ≠ '.') : pySplitDot l = [l] := by
  induction l with
  | nil => rfl
  | cons c cs ih =>
    rw [pySplitDot, if_neg (h c (List.mem_cons_self c cs)),
      ih fun x hx => h x (List.mem_cons_of_mem c hx)]

theorem pySplitDot_append {a b : List Char} (ha : ∀ c ∈ a, c ≠ '.')
    (hb : ∀ c ∈ b, c ≠ '.') : pySplitDot (a ++ '.' :: b) = [a, b] := by
  induction a with
  | nil => simp [pySplitDot, pySplitDot_noDot hb]
  | cons c cs ih =>
    rw [List.cons_append, pySplitDot, if_neg (ha c (List.mem_cons_self c cs)),
      ih fun x hx => ha x (List.mem_cons_of_mem c hx)]

/-- C6: Token round-trip — validating a token immediately after issuing it
with a non-empty subject and a positive lifetime (same clock, same server
secret) succeeds and returns exactly the issued subject. -/
theorem token_round_trip (subject : String) (lifetime now : ℤ)
    (hs : subject ≠ "") (hl : 0 < lifetime) :
    decode_access_token (create_access_token [("sub", .pyStr subject)] (some lifetime) now) now
      = .ok { username := some subject } := by
  have hne0 : lifetime ≠ 0 := by omega
  have hcreate : create_access_token [("sub", PyVal.pyStr subject)] (some lifetime) now =
      String.mk (serializeClaims [("sub", PyVal.pyStr subject),
        ("exp", PyVal.pyInt (now + lifetime))]) ++ "." ++
      pySign (String.mk (serializeClaims [("sub", PyVal.pyStr subject),
        ("exp", PyVal.pyInt (now + lifetime))])) := by
    rw [create_access_token]
    simp only [if_neg hne0]
    rw [show dictSet [("sub", PyVal.pyStr subject)] "exp" (PyVal.pyInt (now + lifetime)) =
      [("sub", PyVal.pyStr subject), ("exp", PyVal.pyInt (now + lifetime))] from rfl]
  rw [hcreate, decode_access_token]
  have hdata : (String.mk (serializeClaims [("sub", PyVal.pyStr subject),
        ("exp", PyVal.pyInt (now + lifetime))]) ++ "." ++
      pySign (String.mk (serializeClaims [("sub", PyVal.pyStr subject),
        ("exp", PyVal.pyInt (now + lifetime))]))).data =
      serializeClaims [("sub", PyVal.pyStr subject), ("exp", PyVal.pyInt (now + lifetime))] ++
        '.' :: (pySign (String.mk (serializeClaims [("sub", PyVal.pyStr subject),
          ("exp", PyVal.pyInt (now + lifetime))]))).data := by
    rw [String.data_append, String.data_append]
    simp
  rw [hdata, pySplitDot_append (fun c hc => mem_serializeClaims_ne_dot hc)
    (fun c hc => mem_pySign_ne_dot hc)]
  simp only [ne_eq]
  rw [if_neg (by simp)]
  rw [deserializeClaims_subExp]
  simp only [show dictGet [("sub", PyVal.pyStr subject), ("exp", PyVal.pyInt (now + lifetime))]
      "sub" = some (PyVal.pyStr subject) from rfl,
    show dictGet [("sub", PyVal.pyStr subject), ("exp", PyVal.pyInt (now + lifetime))]
      "exp" = some (PyVal.pyInt (now + lifetime)) from rfl]
  rw [if_neg (by push_neg; exact ⟨hs, by omega⟩)]

theorem token_round_trip_witness :
    ("alice" : String) ≠ "" ∧ (0 : ℤ) < 1800 ∧
    decode_access_token (create_access_token [("sub", .pyStr "alice")] (some 1800) 0) 0 =
      .ok { username := some "alice" } :=
  ⟨by decide, by decide, token_round_trip "alice" 1800 0 (by decide) (by decide)⟩

/-- C5: every failure mode of token validation — wrong separator count,
tampered signature, malformed payload encoding, missing subject claim,
empty subject claim, and expired token — collapses to the single
`credentials_exception` outcome; validation never crashes (it is total) and
never returns a distinguishing reason.  The first conjunct is the uniform
bound over all inputs; the remaining conjuncts exhibit each failure mode. -/
theorem decode_access_token_uniform_rejection :
    (∀ (token : String) (now : ℤ),
      (∃ td, decode_access_token token now = .ok td) ∨
        decode_access_token token now = .error credentials_exception) ∧
    decode_access_token "missing-separator" 0 = .error credentials_exception ∧
    decode_access_token "too.many.dots" 0 = .error credentials_exception ∧
    decode_access_token ((create_access_token [("sub", .pyStr "bob")] (some 3600) 0).push 'x') 0
      = .error credentials_exception ∧
    decode_access_token ("zz." ++ pySign "zz") 0 = .error credentials_exception ∧
    decode_access_token (create_access_token [] (some 3600) 0) 0 =
      .error credentials_exception ∧
    decode_access_token (create_access_token [("sub", .pyStr "")] (some 3600) 0) 0 =
      .error credentials_exception ∧
    decode_access_token (create_access_token [("sub", .pyStr "bob")] (some 5) 0) 10 =
      .error credentials_exception := by
  refine ⟨?_, by rfl, by rfl, by rfl, by rfl, by rfl, by rfl, by rfl⟩
  intro token now
  rw [decode_access_token]
  rcases hsplit : pySplitDot token.data with _ | ⟨p, ps⟩
  · exact Or.inr rfl
  · rcases ps with _ | ⟨s, ss⟩
    · exact Or.inr rfl
    · rcases ss with _ | ⟨x, xs⟩
      · repeat' first
          | exact Or.inr rfl
          | exact Or.inl ⟨_, rfl⟩
          | split
      · exact Or.inr rfl

/-- C9: `create_access_token` operates on a copy of its `data` dict — after
the call the caller's dict object is unchanged (in particular no `"exp"` key
was added to it), and the returned token is the one computed from the
original entries. -/
theorem create_access_token_preserves_data (σ : PyStore) (dataRef : Nat)
    (expires_delta : Option ℤ) (now : ℤ) (h : dataRef < σ.length) :
    storeRead (create_access_token_st σ dataRef expires_delta now).2 dataRef =
      storeRead σ dataRef ∧
    dictGet (storeRead (create_access_token_st σ dataRef expires_delta now).2 dataRef) "exp" =
      dictGet (storeRead σ dataRef) "exp" ∧
    (create_access_token_st σ dataRef expires_delta now).1 =
      create_access_token (storeRead σ dataRef) expires_delta now := by
  have hread : storeRead (create_access_token_st σ dataRef expires_delta now).2 dataRef =
      storeRead σ dataRef := by
    show ((σ ++ [storeRead σ dataRef]).set σ.length _).getD dataRef [] = σ.getD dataRef []
    rw [List.getD_eq_getElem?_getD, List.getD_eq_getElem?_getD,
      List.getElem?_set_ne (by omega), List.getElem?_append_left h]
  refine ⟨hread, by rw [hread], ?_⟩
  unfold create_access_token_st create_access_token
  simp only [storeAlloc, storeWrite, storeRead]
  have hmid : (σ ++ [σ.getD dataRef []]).getD σ.length [] = σ.getD dataRef [] := by
    rw [List.getD_eq_getElem?_getD, List.getElem?_append_right (Nat.le_refl _)]
    simp
  rw [hmid]
  have hset : ∀ v : PyVal, ((σ ++ [σ.getD dataRef []]).set σ.length
      (dictSet (σ.getD dataRef []) "exp" v)).getD σ.length [] =
      dictSet (σ.getD dataRef []) "exp" v := by
    intro v
    rw [List.getD_eq_getElem?_getD, List.getElem?_set_self (by simp)]
    rfl
  rw [hset]

theorem create_access_token_preserves_data_witness :
    0 < ([[("sub", PyVal.pyStr "alice")]] : PyStore).length ∧
    storeRead (create_access_token_st [[("sub", PyVal.pyStr "alice")]] 0 (some 60) 0).2 0 =
      storeRead [[("sub", PyVal.pyStr "alice")]] 0 :=
  ⟨by decide,
   (create_access_token_preserves_data [[("sub", PyVal.pyStr "alice")]] 0 (some 60) 0
     (by decide)).1⟩

/-- C1: drift severity is a pure step function of PSI alone: `"none"` below
0.1, `"moderate"` on `[0.1, 0.2)`, `"significant"` from 0.2 on, with exactly
the stated outcomes at the two boundary values. -/
theorem classify_drift_severity_step (psi : ℝ) :
    (psi < 0.1 → classify_drift_severity psi = "none") ∧
    (0.1 ≤ psi → psi < 0.2 → classify_drift_severity psi = "moderate") ∧
    (0.2 ≤ psi → classify_drift_severity psi = "significant") ∧
    classify_drift_severity 0.1 = "moderate" ∧
    classify_drift_severity 0.2 = "significant" := by
  refine ⟨?_, ?_, ?_, ?_, ?_⟩
  · intro h
    rw [classify_drift_severity, if_pos h]
  · intro h1 h2
    rw [classify_drift_severity, if_neg (not_lt.2 h1), if_pos h2]
  · intro h
    rw [classify_drift_severity, if_neg (by linarith), if_neg (by linarith)]
  · rw [classify_drift_severity, if_neg (by norm_num), if_pos (by norm_num)]
  · rw [classify_drift_severity, if_neg (by norm_num), if_neg (by norm_num)]

theorem classify_drift_severity_step_witness :
    classify_drift_severity 0.05 = "none" ∧
    classify_drift_severity 0.15 = "moderate" ∧
    classify_drift_severity 0.25 = "significant" :=
  ⟨(classify_drift_severity_step 0.05).1 (by norm_num),
   (classify_drift_severity_step 0.15).2.1 (by norm_num) (by norm_num),
   (classify_drift_severity_step 0.25).2.2.1 (by norm_num)⟩

/-- C10: `send_alert`'s outcome mapping has a key exactly for the channels
enabled at construction (Slack and Teams additionally requiring a truthy
webhook URL); disabled channels are absent rather than recorded as `false`,
and the `webhook` enum member never appears. -/
theorem send_alert_channel_keys (m : AlertManager) (deliver : AlertChannel → Alert → Bool)
    (title message : String) (severity : AlertSeverity) (now : String) :
    (AlertChannel.slack ∈ (m.send_alert deliver title message severity now).map Prod.fst ↔
      m.slack_enabled = true ∧ optStrTruthy m.slack_webhook = true) ∧
    (AlertChannel.teams ∈ (m.send_alert deliver title message severity now).map Prod.fst ↔
      m.teams_enabled = true ∧ optStrTruthy m.teams_webhook = true) ∧
    (AlertChannel.email ∈ (m.send_alert deliver title message severity now).map Prod.fst ↔
      m.email_enabled = true) ∧
    AlertChannel.webhook ∉ (m.send_alert deliver title message severity now).map Prod.fst := by
  rcases m with ⟨se, te, ee, sw, tw⟩
  cases se <;> cases te <;> cases ee <;> cases hsw : optStrTruthy sw <;>
    cases htw : optStrTruthy tw <;>
      simp [AlertManager.send_alert, hsw, htw]

/-- C7 (counterexample): with API-key authentication disabled
(`ENABLE_API_KEY_AUTH` unset) and no key configured, presenting an arbitrary
API key still resolves to the generic API-key identity, because
`verify_api_key` fails open; so the gate does not require "presented ∧
enabled ∧ configured ∧ equal" as the claim states. -/
theorem api_key_gate_counterexample :
    get_current_user_optional { enable_api_key_auth := none, api_key := none }
      none (some "any-key") 0 = some api_key_user ∧
    apiKeyAuthEnabled { enable_api_key_auth := none, api_key := none } = false := by
  constructor
  · rfl
  · decide

/-- C7 (amended): with no bearer credentials, the gate resolves to the
generic API-key identity exactly when a non-empty API key is presented and
either API-key auth is disabled, or no non-empty key is configured, or the
configured key equals the presented one; in every other combination the
API-key path yields no identity. -/
theorem api_key_gate_amended (env : AuthEnv) (k : String) (now : ℤ) :
    get_current_user_optional env none (some k) now = some api_key_user ↔
      k ≠ "" ∧ (apiKeyAuthEnabled env = false ∨ optStrTruthy env.api_key = false ∨
        env.api_key = some k) := by
  by_cases hk : k = ""
  · subst hk
    simp [get_current_user_optional]
  · by_cases he : apiKeyAuthEnabled env
    · by_cases hc : optStrTruthy env.api_key
      · rcases hcfg : env.api_key with _ | v
        · rw [hcfg] at hc
          simp [optStrTruthy] at hc
        · have hc' : optStrTruthy (some v) = true := hcfg ▸ hc
          by_cases hkv : k = v
          · subst hkv
            simp [get_current_user_optional, verify_api_key, he, hc', hk, hcfg]
          · have hvk : v ≠ k := fun hvk => hkv hvk.symm
            simp [get_current_user_optional, verify_api_key, he, hc', hk, hcfg, hkv, hvk]
      · simp only [Bool.not_eq_true] at hc
        simp [get_current_user_optional, verify_api_key, he, hc, hk]
    · simp only [Bool.not_eq_true] at he
      simp [get_current_user_optional, verify_api_key, he, hk]

/-- A six-feature drift report, all features drifted, PSI increasing in
report order; input for the summary counterexample. -/
def sixFeatureReport : DriftReport :=
  [("f1", { psi := 1, drift_detected := true }),
   ("f2", { psi := 2, drift_detected := true }),
   ("f3", { psi := 3, drift_detected := true }),
   ("f4", { psi := 4, drift_detected := true }),
   ("f5", { psi := 5, drift_detected := true }),
   ("f6", { psi := 6, drift_detected := true })]

/-- C8 (counterexample): the summary lists `drift_features[:5]` — the first
five drifted features in report order — not the top 5 by PSI descending: on
a report whose six drifted features have increasing PSI, the listed features
exclude the top-PSI feature `"f6"` entirely, and the rendered summary shows
`f1..f5` in report order. -/
theorem generate_drift_summary_counterexample :
    (drift_features sixFeatureReport).take 5 ≠ top5_by_psi_desc sixFeatureReport ∧
    "f6" ∉ (drift_features sixFeatureReport).take 5 ∧
    (top5_by_psi_desc sixFeatureReport).head? = some "f6" ∧
    generate_drift_summary sixFeatureReport =
      "Drift Detection Summary:\n  Total features monitored: 6\n  Features with drift: 6\n\n  Critical features:\n    - f1: PSI = 1.0000\n    - f2: PSI = 2.0000\n    - f3: PSI = 3.0000\n    - f4: PSI = 4.0000\n    - f5: PSI = 5.0000\n" := by
  refine ⟨by decide, by decide, by decide, by decide⟩

/-- C8 (amended): the summary states the total number of monitored features
and the count with drift, and lists up to 5 drifted features — the first
five drifted features in report (insertion) order, each with its PSI — not
the top five by PSI descending. -/
theorem generate_drift_summary_amended (r : DriftReport) :
    ((drift_features r).take 5).length = min 5 (drift_features r).length ∧
    (∀ f ∈ (drift_features r).take 5, ∃ e, (f, e) ∈ r ∧ e.drift_detected = true) ∧
    (drift_features r).take 5 ++ (drift_features r).drop 5 = drift_features r ∧
    generate_drift_summary r =
      (if (drift_features r).isEmpty then
        "Drift Detection Summary:\n" ++ "  Total features monitored: " ++
          toString r.length ++ "\n" ++ "  Features with drift: " ++
          toString (drift_features r).length ++ "\n"
      else
        ("Drift Detection Summary:\n" ++ "  Total features monitored: " ++
          toString r.length ++ "\n" ++ "  Features with drift: " ++
          toString (drift_features r).length ++ "\n") ++
          "\n  Critical features:\n" ++
          String.join (((drift_features r).take 5).map fun f =>
            "    - " ++ f ++ ": PSI = " ++ formatRat4 (reportPsi r f) ++ "\n")) := by
  refine ⟨List.length_take 5 _, ?_, List.take_append_drop 5 _, rfl⟩
  intro f hf
  have hf' : f ∈ drift_features r := List.mem_of_mem_take hf
  rw [drift_features, List.mem_map] at hf'
  obtain ⟨p, hp, rfl⟩ := hf'
  rw [List.mem_filter] at hp
  exact ⟨p.2, by simpa using hp.1, hp.2⟩

theorem generate_drift_summary_amended_witness :
    ∃ e, ("x", e) ∈ ([("x", { psi := 1, drift_detected := true })] : DriftReport) ∧
      e.drift_detected = true :=
  (generate_drift_summary_amended [("x", { psi := 1, drift_detected := true })]).2.1
    "x" (by decide)

/-! ### Lemmas: PSI positivity and the zero characterization -/

theorem psiTerm_nonneg {c r : ℚ} (hc : 0 < c) (hr : 0 < r) : 0 ≤ psiTerm c r := by
  rw [psiTerm]
  have hc' : (0 : ℝ) < (c : ℝ) := by exact_mod_cast hc
  have hr' : (0 : ℝ) < (r : ℝ) := by exact_mod_cast hr
  rcases le_total (r : ℝ) (c : ℝ) with h | h
  · have h1 : (0 : ℝ) ≤ (c : ℝ) - r := by linarith
    have h2 : (0 : ℝ) ≤ Real.log ((c : ℝ) / r) :=
      Real.log_nonneg ((one_le_div hr').2 h)
    exact mul_nonneg h1 h2
  · have h1 : (c : ℝ) - r ≤ 0 := by linarith
    have h2 : Real.log ((c : ℝ) / r) ≤ 0 :=
      Real.log_nonpos (by positivity) ((div_le_one hr').2 h)
    have := mul_nonneg (neg_nonneg.2 h1) (neg_nonneg.2 h2)
    rwa [neg_mul_neg] at this

theorem psiTerm_eq_zero_iff {c r : ℚ} (hc : 0 < c) (hr : 0 < r) :
    psiTerm c r = 0 ↔ c = r := by
  constructor
  · intro h
    by_contra hne
    have hc' : (0 : ℝ) < (c : ℝ) := by exact_mod_cast hc
    have hr' : (0 : ℝ) < (r : ℝ) := by exact_mod_cast hr
    rcases lt_or_gt_of_ne hne with hlt | hgt
    · have hlt' : (c : ℝ) < (r : ℝ) := by exact_mod_cast hlt
      have h1 : (c : ℝ) - r < 0 := by linarith
      have h2 : Real.log ((c : ℝ) / r) < 0 :=
        Real.log_neg (by positivity) ((div_lt_one hr').2 hlt')
      have : 0 < psiTerm c r := by
        rw [psiTerm]
        exact mul_pos_of_neg_of_neg h1 h2
      exact absurd h (by linarith)
    · have hgt' : (r : ℝ) < (c : ℝ) := by exact_mod_cast hgt
      have h1 : (0 : ℝ) < (c : ℝ) - r := by linarith
      have h2 : 0 < Real.log ((c : ℝ) / r) :=
        Real.log_pos ((one_lt_div hr').2 hgt')
      have : 0 < psiTerm c r := by
        rw [psiTerm]
        exact mul_pos h1 h2
      exact absurd h (by linarith)
  · intro h
    subst h
    rw [psiTerm, sub_self, zero_mul]

theorem psiSum_nonneg {cur ref : List ℚ} (hcur : ∀ x ∈ cur, 0 < x)
    (href : ∀ x ∈ ref, 0 < x) : 0 ≤ psiSum cur ref := by
  induction cur generalizing ref with
  | nil => simp [psiSum]
  | cons c cs ih =>
    cases ref with
    | nil => simp [psiSum]
    | cons r rs =>
      rw [psiSum, List.zip_cons_cons, List.map_cons, List.sum_cons]
      have h1 := psiTerm_nonneg (hcur c (List.mem_cons_self c cs))
        (href r (List.mem_cons_self r rs))
      have h2 : 0 ≤ psiSum cs rs :=
        ih (fun x hx => hcur x (List.mem_cons_of_mem c hx))
          (fun x hx => href x (List.mem_cons_of_mem r hx))
      rw [psiSum] at h2
      linarith

theorem psiSum_self (l : List ℚ) : psiSum l l = 0 := by
  induction l with
  | nil => simp [psiSum]
  | cons x xs ih =>
    rw [psiSum, List.zip_cons_cons, List.map_cons, List.sum_cons, psiTerm, sub_self, zero_mul,
      zero_add]
    rw [psiSum] at ih
    exact ih

theorem psiSum_eq_zero_iff {cur ref : List ℚ} (hlen : cur.length = ref.length)
    (hcur : ∀ x ∈ cur, 0 < x) (href : ∀ x ∈ ref, 0 < x) :
    psiSum cur ref = 0 ↔ cur = ref := by
  induction cur generalizing ref with
  | nil =>
    cases ref with
    | nil => simp [psiSum]
    | cons r rs => simp at hlen
  | cons c cs ih =>
    cases ref with
    | nil => simp at hlen
    | cons r rs =>
      rw [psiSum, List.zip_cons_cons, List.map_cons, List.sum_cons]
      have hterm := psiTerm_nonneg (hcur c (List.mem_cons_self c cs))
        (href r (List.mem_cons_self r rs))
      have htail : 0 ≤ psiSum cs rs :=
        psiSum_nonneg (fun x hx => hcur x (List.mem_cons_of_mem c hx))
          (fun x hx => href x (List.mem_cons_of_mem r hx))
      rw [psiSum] at htail
      rw [add_eq_zero_iff_of_nonneg hterm htail]
      rw [psiTerm_eq_zero_iff (hcur c (List.mem_cons_self c cs))
        (href r (List.mem_cons_self r rs))]
      have hlen' : cs.length = rs.length := by
        simpa using hlen
      have := ih hlen' (fun x hx => hcur x (List.mem_cons_of_mem c hx))
        (fun x hx => href x (List.mem_cons_of_mem r hx))
      rw [psiSum] at this
      rw [this]
      constructor
      · rintro ⟨rfl, rfl⟩
        rfl
      · intro h
        injection h with h1 h2
        exact ⟨h1, h2⟩

theorem clampFloor_pos {p : ℚ} (hp : 0 ≤ p) : 0 < clampFloor p := by
  rw [clampFloor]
  split
  · norm_num
  · rcases lt_or_eq_of_le hp with h | h
    · exact h
    · exact absurd h.symm (by assumption)

theorem binPercents_clamped_pos (counts : List Nat) (total : Nat) :
    ∀ x ∈ (binPercents counts total).map clampFloor, 0 < x := by
  intro x hx
  rw [List.mem_map] at hx
  obtain ⟨p, hp, rfl⟩ := hx
  refine clampFloor_pos ?_
  rw [binPercents, List.mem_map] at hp
  obtain ⟨n, hn, hpn⟩ := hp
  subst hpn
  exact div_nonneg (Nat.cast_nonneg n) (Nat.cast_nonneg total)

theorem histCounts_length (data : List ℚ) (edges : List BinEdge) :
    (histCounts data edges).length = edges.length - 1 := by
  induction edges with
  | nil => rfl
  | cons e1 rest ih =>
    cases rest with
    | nil => rfl
    | cons e2 rest2 =>
      cases rest2 with
      | nil => rfl
      | cons e3 rest3 =>
        rw [histCounts, List.length_cons, ih]
        simp

/-- C4: on non-empty samples `calculate_psi` succeeds with a non-negative
value; the value is 0 exactly when the two binned, floor-clamped fraction
vectors coincide; and PSI of a sample against itself is exactly 0. -/
theorem calculate_psi_properties (reference current : List ℚ)
    (href : reference ≠ []) (_hcur : current ≠ []) :
    (∃ edges v, psiBreakpoints reference 10 = .ok edges ∧
      calculate_psi reference current = .ok v ∧ 0 ≤ v ∧
      (v = 0 ↔
        (binPercents (histCounts current edges) current.length).map clampFloor =
          (binPercents (histCounts reference edges) reference.length).map clampFloor)) ∧
    calculate_psi reference reference = .ok 0 := by
  have hbp : psiBreakpoints reference 10 =
      .ok (BinEdge.negInf ::
        ((((linspace100 10).map (npPercentile reference)).drop 1).dropLast.map BinEdge.val)
          ++ [BinEdge.posInf]) := by
    rw [psiBreakpoints, if_neg href]
  have hpsi : ∀ cur : List ℚ, calculate_psi reference cur =
      .ok (psiSum
        ((binPercents (histCounts cur (BinEdge.negInf ::
          ((((linspace100 10).map (npPercentile reference)).drop 1).dropLast.map BinEdge.val)
            ++ [BinEdge.posInf])) cur.length).map clampFloor)
        ((binPercents (histCounts reference (BinEdge.negInf ::
          ((((linspace100 10).map (npPercentile reference)).drop 1).dropLast.map BinEdge.val)
            ++ [BinEdge.posInf])) reference.length).map clampFloor)) := by
    intro cur
    unfold calculate_psi
    rw [hbp]
    rfl
  constructor
  · refine ⟨_, _, hbp, hpsi current, ?_, ?_⟩
    · exact psiSum_nonneg (binPercents_clamped_pos _ _) (binPercents_clamped_pos _ _)
    · refine psiSum_eq_zero_iff ?_ (binPercents_clamped_pos _ _) (binPercents_clamped_pos _ _)
      simp [binPercents, histCounts_length]
  · rw [hpsi reference, psiSum_self]

theorem calculate_psi_properties_witness :
    (([1, 2] : List ℚ) ≠ []) ∧ (([3] : List ℚ) ≠ []) ∧
    ((∃ edges v, psiBreakpoints [1, 2] 10 = .ok edges ∧
      calculate_psi [1, 2] [3] = .ok v ∧ 0 ≤ v ∧
      (v = 0 ↔
        (binPercents (histCounts [3] edges) (List.length [(3 : ℚ)])).map clampFloor =
          (binPercents (histCounts [1, 2] edges) (List.length [(1 : ℚ), 2])).map clampFloor)) ∧
    calculate_psi [1, 2] [1, 2] = .ok 0) :=
  ⟨by decide, by decide, calculate_psi_properties [1, 2] [3] (by decide) (by decide)⟩

/-- The fraud rate is a ratio of counts, hence non-negative. -/
theorem fraudRate_nonneg (l : List ℚ) : 0 ≤ fraudRate l :=
  div_nonneg (Nat.cast_nonneg _) (Nat.cast_nonneg _)

/-- C3: on non-empty score arrays, `detect_target_drift` reports each side's
fraud rate as the fraction of scores strictly greater than 0.5, the relative
rate change as `|current − reference| / reference` (0 when the reference
rate is 0), and sets the drift flag exactly when the score-array PSI exceeds
the PSI threshold or the relative rate change exceeds 0.3. -/
theorem detect_target_drift_spec (threshold_psi : ℝ) (ref cur : List ℚ)
    (href : ref ≠ []) (hcur : cur ≠ []) :
    ∃ r, detect_target_drift threshold_psi ref cur = .ok r ∧
      r.reference_fraud_rate = ((ref.countP fun x => 1 / 2 < x : ℕ) : ℚ) / (ref.length : ℚ) ∧
      r.current_fraud_rate = ((cur.countP fun x => 1 / 2 < x : ℕ) : ℚ) / (cur.length : ℚ) ∧
      r.fraud_rate_change = (if r.reference_fraud_rate = 0 then 0
        else |r.current_fraud_rate - r.reference_fraud_rate| / r.reference_fraud_rate) ∧
      (r.drift_detected ↔ r.psi > threshold_psi ∨ r.fraud_rate_change > 3 / 10) := by
  obtain ⟨⟨edges, v, hbp, hv, hnn, hiff⟩, hself⟩ := calculate_psi_properties ref cur href hcur
  have hdet : detect_target_drift threshold_psi ref cur = .ok
      { reference_fraud_rate := fraudRate ref
        current_fraud_rate := fraudRate cur
        fraud_rate_change :=
          if fraudRate ref > 0 then |fraudRate cur - fraudRate ref| / fraudRate ref else 0
        psi := v
        chi2_statistic := chisquareStat [fraudRate cur, 1 - fraudRate cur]
          [fraudRate ref, 1 - fraudRate ref]
        drift_detected := v > threshold_psi ∨
          (if fraudRate ref > 0 then |fraudRate cur - fraudRate ref| / fraudRate ref else 0)
            > 3 / 10 } := by
    unfold detect_target_drift
    rw [hv]
    rfl
  refine ⟨_, hdet, rfl, rfl, ?_, Iff.rfl⟩
  show (if fraudRate ref > 0 then |fraudRate cur - fraudRate ref| / fraudRate ref else 0) = _
  by_cases h : fraudRate ref = 0
  · rw [if_pos h, if_neg (by rw [h]; exact lt_irrefl 0)]
  · rw [if_neg h, if_pos (lt_of_le_of_ne (fraudRate_nonneg ref) (Ne.symm h))]

theorem detect_target_drift_spec_witness :
    (([1] : List ℚ) ≠ []) ∧ (([0] : List ℚ) ≠ []) ∧
    ∃ r, detect_target_drift 0.2 [1] [0] = .ok r ∧
      r.reference_fraud_rate =
        ((List.countP (fun x => 1 / 2 < x) [(1 : ℚ)] : ℕ) : ℚ) / (List.length [(1 : ℚ)] : ℚ) ∧
      r.current_fraud_rate =
        ((List.countP (fun x => 1 / 2 < x) [(0 : ℚ)] : ℕ) : ℚ) / (List.length [(0 : ℚ)] : ℚ) ∧
      r.fraud_rate_change = (if r.reference_fraud_rate = 0 then 0
        else |r.current_fraud_rate - r.reference_fraud_rate| / r.reference_fraud_rate) ∧
      (r.drift_detected ↔ r.psi > 0.2 ∨ r.fraud_rate_change > 3 / 10) :=
  ⟨by decide, by decide, detect_target_drift_spec 0.2 [1] [0] (by decide) (by decide)⟩

/-- C2: `detect_feature_drift` has no per-feature guard — on a feature whose
reference column is empty after null-dropping, `calculate_psi`'s breakpoint
computation raises `IndexError` (numpy percentile of an empty array), which
propagates out of the whole call: no per-feature "unavailable" finding is
reported and the remaining features (here `"v1"`, which is perfectly
computable) are never processed.  This contradicts the claimed per-feature
error containment. -/
theorem detect_feature_drift_crash :
    detect_feature_drift 0.2 0.05 (fun _ _ => .ok (0, 1))
      [("amount", []), ("v1", [some 1, some 2])]
      [("amount", [some 1]), ("v1", [some 2, some 3])]
      ["amount", "v1"] =
      .error "IndexError: cannot do a non-empty take from an empty axes." := by
  rfl
